import Mathlib

/-!
Verification of the financial-sentiment-analysis pipeline.

Shallow embedding of the pure cores of `src/data_collection.py`,
`src/sentiment.py` and `src/main.py`:
* the title-based deduplication loop of `get_financial_news_fast`
  (data_collection.py lines 240-249),
* the adapter fallback/accumulation loop (lines 229-238),
* the blank-title neutral substitution of `analyze_dataframe`
  (sentiment.py lines 100-114 and 173-187),
* the per-ticker groupby aggregation of `process_news_data` (lines 220-223),
* `save_news_data`'s append-or-create logic (data_collection.py lines 252-270),
* the batch loop and exit behaviour of `main.py` `run_pipeline`.

Effectful pieces (HTTP calls, pandas I/O, the filesystem) are modelled by
explicit parameters: adapter outcomes are `Except Unit (List NewsItem)`
values (an exception vs. a returned list), the filesystem is a finite map
from names to row lists, and numeric scores are rationals.
-/

/-- One news item as built by the adapter methods of `FastNewsCollector`
(dict with keys ticker/title/summary/url/published/source/retrieved_date). -/
structure NewsItem where
  ticker : String
  title : String
  summary : String
  url : String
  published : String
  source : String
  retrieved_date : String
deriving Repr, DecidableEq

/-- Python `str.lower()`: lowercase each code point. -/
def pyLower (s : String) : String := ⟨s.data.map Char.toLower⟩

/-- Python `str.strip()`: drop leading and trailing whitespace code points. -/
def pyStrip (s : String) : String :=
  ⟨((s.data.dropWhile Char.isWhitespace).reverse.dropWhile Char.isWhitespace).reverse⟩

/-- `item.get('title', '').lower().strip()` — the normalized dedup key
(data_collection.py line 244). -/
def normalizeTitle (t : String) : String := pyStrip (pyLower t)

/-- The dedup key of a record. -/
def keyOf (r : NewsItem) : String := normalizeTitle r.title

/-- The dedup loop of `get_financial_news_fast` (data_collection.py lines
241-247): `seen` is the `seen_titles` set, an item is kept iff its
normalized title is truthy (non-empty) and not yet seen. -/
def dedupeAux (seen : List String) : List NewsItem → List NewsItem
  | [] => []
  | item :: rest =>
    let title := normalizeTitle item.title
    if title ≠ "" ∧ title ∉ seen then
      item :: dedupeAux (title :: seen) rest
    else
      dedupeAux seen rest

/-- Deduplication with an initially empty `seen_titles` set. -/
def dedupe (items : List NewsItem) : List NewsItem := dedupeAux [] items

/-- The adapter fallback loop of `get_financial_news_fast` (data_collection.py
lines 229-238): each adapter call either raises (`Except.error`) — caught and
skipped — or returns a list; a non-empty result (`if news:`) is appended to
the accumulator and the loop breaks once `len(all_news) >= max_articles`. -/
def collectNews : List (Except Unit (List NewsItem)) → Nat → List NewsItem → List NewsItem
  | [], _, acc => acc
  | Except.error _ :: rest, cap, acc => collectNews rest cap acc
  | Except.ok news :: rest, cap, acc =>
    if news = [] then
      collectNews rest cap acc
    else if cap ≤ (acc ++ news).length then
      acc ++ news
    else
      collectNews rest cap (acc ++ news)

/-- `get_financial_news_fast(ticker, max_articles)` (data_collection.py lines
216-249): run the adapters in order with the fallback loop, dedupe, and
truncate to `max_articles`. The fixed `apis_to_try` table is a parameter so
the theorems quantify over adapter behaviour. -/
def get_financial_news_fast (apis : List (String → Nat → Except Unit (List NewsItem)))
    (ticker : String) (max_articles : Nat) : List NewsItem :=
  (dedupe (collectNews (apis.map (fun f => f ticker max_articles)) max_articles [])).take
    max_articles

/-! ### Invariants of the dedup loop -/

theorem dedupeAux_sublist (seen : List String) (items : List NewsItem) :
    List.Sublist (dedupeAux seen items) items := by
  induction items generalizing seen with
  | nil => simp [dedupeAux]
  | cons item rest ih =>
    simp only [dedupeAux]
    split
    · exact List.Sublist.cons₂ item (ih _)
    · exact List.Sublist.cons item (ih _)

theorem mem_dedupeAux (seen : List String) (items : List NewsItem) :
    ∀ r ∈ dedupeAux seen items, keyOf r ≠ "" ∧ keyOf r ∉ seen := by
  induction items generalizing seen with
  | nil => simp [dedupeAux]
  | cons item rest ih =>
    intro r hr
    simp only [dedupeAux] at hr
    split at hr
    · rename_i hcond
      rcases List.mem_cons.mp hr with hEq | hMem
      · subst hEq
        exact ⟨hcond.1, hcond.2⟩
      · have h := ih _ r hMem
        exact ⟨h.1, fun hs => h.2 (List.mem_cons_of_mem _ hs)⟩
    · exact ih _ r hr

theorem dedupeAux_keys_nodup (seen : List String) (items : List NewsItem) :
    ((dedupeAux seen items).map keyOf).Nodup := by
  induction items generalizing seen with
  | nil => simp [dedupeAux]
  | cons item rest ih =>
    simp only [dedupeAux]
    split
    · rename_i hcond
      simp only [List.map_cons, List.nodup_cons]
      constructor
      · intro hmem
        rcases List.mem_map.mp hmem with ⟨r, hr, hkey⟩
        have h := mem_dedupeAux _ _ r hr
        exact h.2 (hkey ▸ List.mem_cons_self _ _)
      · exact ih _
    · exact ih _

theorem dedupeAux_eq_self (seen : List String) (items : List NewsItem)
    (h : ∀ r ∈ items, keyOf r ≠ "" ∧ keyOf r ∉ seen)
    (hn : (items.map keyOf).Nodup) : dedupeAux seen items = items := by
  induction items generalizing seen with
  | nil => rfl
  | cons item rest ih =>
    have hitem := h item (List.mem_cons_self _ _)
    simp only [dedupeAux]
    rw [if_pos ⟨hitem.1, hitem.2⟩]
    congr 1
    apply ih
    · intro r hr
      have h' := h r (List.mem_cons_of_mem _ hr)
      refine ⟨h'.1, ?_⟩
      intro hs
      rcases List.mem_cons.mp hs with hEq | hMem
      · have hnd : normalizeTitle item.title ∉ rest.map keyOf := (List.nodup_cons.mp hn).1
        exact hnd (hEq ▸ List.mem_map_of_mem keyOf hr)
      · exact h'.2 hMem
    · exact (List.nodup_cons.mp hn).2

theorem mem_dedupeAux_of_first (pre : List NewsItem) :
    ∀ (seen : List String) (post : List NewsItem) (r : NewsItem),
      keyOf r ≠ "" → keyOf r ∉ seen → (∀ p ∈ pre, keyOf p ≠ keyOf r) →
      r ∈ dedupeAux seen (pre ++ r :: post) := by
  induction pre with
  | nil =>
    intro seen post r hk hs _
    simp only [List.nil_append, dedupeAux]
    rw [if_pos ⟨hk, hs⟩]
    exact List.mem_cons_self _ _
  | cons x pre ih =>
    intro seen post r hk hs hp
    have hx : keyOf x ≠ keyOf r := hp x (List.mem_cons_self _ _)
    simp only [List.cons_append, dedupeAux]
    split
    · refine List.mem_cons_of_mem _ (ih _ post r hk ?_ ?_)
      · intro hmem
        rcases List.mem_cons.mp hmem with hEq | hMem
        · exact hx hEq.symm
        · exact hs hMem
      · exact fun p hp' => hp p (List.mem_cons_of_mem _ hp')
    · exact ih _ post r hk hs (fun p hp' => hp p (List.mem_cons_of_mem _ hp'))

/-! ### Sentiment step (sentiment.py) -/

/-- The triple produced by `analyze_text` / appended per row by
`analyze_dataframe` (sentiment.py). Scores are rationals in the embedding. -/
structure SentimentResult where
  text : String
  sentiment : String
  confidence : ℚ
  sentiment_score : ℚ
deriving Repr, DecidableEq

/-- The fixed substitute appended for a blank text (sentiment.py lines
109-114 and 182-187). -/
def neutralResult : SentimentResult :=
  { text := "", sentiment := "neutral", confidence := 0, sentiment_score := 0 }

/-- The per-row branch of both `analyze_dataframe` implementations
(sentiment.py lines 105-114 and 178-187): `if text and text.strip():`
call the analyzer, else append the fixed neutral triple. -/
def scoreTitle (scorer : String → SentimentResult) (text : String) : SentimentResult :=
  if text ≠ "" ∧ pyStrip text ≠ "" then scorer text else neutralResult

/-- `analyze_dataframe(df, 'title')` restricted to the sentiment column it
produces: one result per row of the `title` column (after `fillna('')`,
a missing title is the empty string). -/
def analyze_dataframe (scorer : String → SentimentResult) (titles : List String) :
    List SentimentResult :=
  titles.map (scoreTitle scorer)

/-! ### Per-ticker aggregation (sentiment.py lines 220-223) -/

/-- One row of `result_df` as seen by the groupby: the original `ticker` and
`title` columns (a CSV title may be NaN, i.e. `none`) plus the attached
`sentiment_score`. -/
structure ScoredRow where
  ticker : String
  title : Option String
  sentiment_score : ℚ
deriving Repr, DecidableEq

/-- The rows of one groupby('ticker') group. -/
def tickerRows (t : String) (rows : List ScoredRow) : List ScoredRow :=
  rows.filter (fun r => r.ticker = t)

/-- `agg({'sentiment_score': 'mean'})`: pandas mean of the group, undefined
(`none`) when the ticker has no rows (the group does not exist). -/
def mean_sentiment_score (t : String) (rows : List ScoredRow) : Option ℚ :=
  let g := tickerRows t rows
  if g.length = 0 then none
  else some ((g.map (fun r => r.sentiment_score)).sum / (g.length : ℚ))

/-- `agg({'title': 'count'})` renamed to `article_count`: pandas `count`
counts the group's non-null `title` cells. -/
def article_count (t : String) (rows : List ScoredRow) : Nat :=
  ((tickerRows t rows).filter (fun r => r.title ≠ none)).length

/-! ### Persister (data_collection.py lines 252-270) -/

/-- A CSV row. -/
abbrev Row := List String

/-- The filesystem visible to `save_news_data`: file name to file content. -/
abbrev FileSystem := List (String × List Row)

def lookupFile (fs : FileSystem) (name : String) : Option (List Row) :=
  (fs.find? (fun p => p.1 = name)).map Prod.snd

/-- Writing a file: replaces any existing content under `name`. -/
def writeFile (fs : FileSystem) (name : String) (content : List Row) : FileSystem :=
  (name, content) :: fs.filter (fun p => p.1 ≠ name)

/-- The header row `pd.DataFrame(news_data)` writes: the dict keys of the
adapter items. -/
def newsHeader : Row :=
  ["ticker", "title", "summary", "url", "published", "source", "retrieved_date"]

/-- One data row of the news CSV. -/
def toRow (r : NewsItem) : Row :=
  [r.ticker, r.title, r.summary, r.url, r.published, r.source, r.retrieved_date]

/-- `save_news_data(news_data)` (data_collection.py lines 252-270).
`minuteStamp` is `%Y%m%d_%H%M`, `dayStamp` is `%Y%m%d`. Empty input returns
`None` and leaves the filesystem alone; if the day-partition file exists the
rows are appended with `header=False`; otherwise the minute-stamped file is
created with the header row. Returns the file name written (or `none`). -/
def save_news_data (minuteStamp dayStamp : String) (news : List NewsItem)
    (fs : FileSystem) : Option String × FileSystem :=
  if news = [] then (none, fs)
  else
    let filename := "data/financial_news_" ++ minuteStamp ++ ".csv"
    let today_file := "data/financial_news_" ++ dayStamp ++ ".csv"
    match lookupFile fs today_file with
    | some content =>
        (some today_file, writeFile fs today_file (content ++ news.map toRow))
    | none =>
        (some filename, writeFile fs filename (newsHeader :: news.map toRow))

/-! ### Batch loop and exit behaviour (main.py) -/

/-- The per-ticker loop body of `run_pipeline` (main.py lines 27-40) —
stock fetch, news fetch, extend `all_news` — abstracted as one call that
either raises (`Except.error`) or returns that ticker's news. The loop has
no try/except: the first exception propagates. -/
def runTickers (proc : String → Except String (List NewsItem)) :
    List String → Except String (List NewsItem)
  | [] => Except.ok []
  | t :: ts =>
    match proc t with
    | Except.error e => Except.error e
    | Except.ok news =>
      match runTickers proc ts with
      | Except.error e => Except.error e
      | Except.ok rest => Except.ok (news ++ rest)

/-- How `run_pipeline` ends on the modelled prefix (main.py lines 42-46):
`abortedNoNews` is the `if not news_file: return` early exit. -/
inductive RunOutcome where
  | abortedNoNews
  | completed
deriving Repr, DecidableEq

/-- `run_pipeline(tickers)` up to the persistence step (main.py lines
14-46): run the unguarded ticker loop, save the accumulated news, return
early when nothing was saved. An uncaught per-ticker exception escapes. -/
def run_pipeline (proc : String → Except String (List NewsItem)) (tickers : List String)
    (minuteStamp dayStamp : String) (fs : FileSystem) :
    Except String (RunOutcome × FileSystem) :=
  match runTickers proc tickers with
  | Except.error e => Except.error e
  | Except.ok allNews =>
    let res := save_news_data minuteStamp dayStamp allNews fs
    match res.1 with
    | none => Except.ok (RunOutcome.abortedNoNews, res.2)
    | some _ => Except.ok (RunOutcome.completed, res.2)

/-- The process exit status of `python main.py` (main.py lines 71-74): the
script never calls `sys.exit`, so a completed call exits 0 and only an
uncaught exception yields the interpreter's nonzero status. -/
def script_exit_code (proc : String → Except String (List NewsItem)) (tickers : List String)
    (minuteStamp dayStamp : String) (fs : FileSystem) : Nat :=
  match run_pipeline proc tickers minuteStamp dayStamp fs with
  | Except.error _ => 1
  | Except.ok _ => 0

/-! ### Concrete records used in counterexamples and witnesses -/

/-- A record whose title is whitespace-only: its dedup key normalizes to `""`. -/
def blankItem : NewsItem :=
  { ticker := "AAPL", title := "   ", summary := "", url := "", published := "",
    source := "Finnhub", retrieved_date := "" }

/-- A record from a first adapter. -/
def itemX : NewsItem :=
  { ticker := "AAPL", title := "X", summary := "", url := "", published := "",
    source := "Finnhub", retrieved_date := "" }

/-- A record from a second adapter with a distinct title. -/
def itemY : NewsItem :=
  { ticker := "AAPL", title := "Y", summary := "", url := "", published := "",
    source := "MarketAux", retrieved_date := "" }

/-- C1 counterexample: the claim says the first record bearing each
normalized-title key appears in the output, for every input sequence.
`blankItem` is the first (and only) record bearing the key `""`, yet
`dedupe` drops it: the loop keeps an item only when its normalized title is
truthy, so whitespace-only titles are removed outright. -/
theorem dedupe_drops_blank_first_occurrence :
    dedupe [blankItem] = [] ∧ normalizeTitle blankItem.title = "" := by
  decide

/-- C1 (amended): for every key that is non-empty after lowercase+trim, the
first record bearing it appears in the output; the output is a sublist of
the input (records are never mutated and keep their relative order); every
surviving record has a non-blank key (records with blank normalized titles
are dropped entirely); and output keys are pairwise distinct, so every later
record with an already-seen key is dropped regardless of source. -/
theorem dedupe_first_occurrence_amended (pre post : List NewsItem) (r : NewsItem)
    (hk : keyOf r ≠ "") (hfirst : ∀ p ∈ pre, keyOf p ≠ keyOf r) :
    r ∈ dedupe (pre ++ r :: post) ∧
    List.Sublist (dedupe (pre ++ r :: post)) (pre ++ r :: post) ∧
    (∀ s ∈ dedupe (pre ++ r :: post), keyOf s ≠ "") ∧
    ((dedupe (pre ++ r :: post)).map keyOf).Nodup := by
  refine ⟨?_, dedupeAux_sublist [] _, ?_, dedupeAux_keys_nodup [] _⟩
  · exact mem_dedupeAux_of_first pre [] post r hk (by simp) hfirst
  · exact fun s hs => (mem_dedupeAux [] _ s hs).1

/-- Witness for the amended C1 at a concrete input: `itemY` is the first
record with its key in `[itemX, itemY]` and survives deduplication. -/
theorem dedupe_first_occurrence_amended_witness :
    itemY ∈ dedupe ([itemX] ++ itemY :: []) :=
  (dedupe_first_occurrence_amended [itemX] [] itemY (by decide) (by decide)).1

/-- C2: deduplication is idempotent — applying the dedup loop to its own
output returns the output unchanged, since every surviving record has a
non-blank, pairwise-distinct key. -/
theorem dedupe_idempotent (x : List NewsItem) : dedupe (dedupe x) = dedupe x := by
  apply dedupeAux_eq_self
  · intro r hr
    exact ⟨(mem_dedupeAux [] x r hr).1, by simp⟩
  · exact dedupeAux_keys_nodup [] x

/-- C3: the aggregator honors the article cap — for every adapter table,
ticker and `max_articles`, `get_financial_news_fast` returns at most
`max_articles` records (the final `unique_news[:max_articles]` truncation). -/
theorem news_fast_length_le_cap (apis : List (String → Nat → Except Unit (List NewsItem)))
    (ticker : String) (max_articles : Nat) :
    (get_financial_news_fast apis ticker max_articles).length ≤ max_articles := by
  unfold get_financial_news_fast
  rw [List.length_take]
  exact min_le_left _ _

/-- C10: every record returned by the aggregator has a title that is
non-empty after lowercasing and trimming (`keyOf r = normalizeTitle r.title`),
and the returned records' normalized titles are pairwise distinct. -/
theorem news_fast_titles_nonblank_distinct
    (apis : List (String → Nat → Except Unit (List NewsItem)))
    (ticker : String) (max_articles : Nat) :
    (∀ r ∈ get_financial_news_fast apis ticker max_articles, keyOf r ≠ "") ∧
    ((get_financial_news_fast apis ticker max_articles).map keyOf).Nodup := by
  unfold get_financial_news_fast
  constructor
  · intro r hr
    exact (mem_dedupeAux [] _ r ((List.take_sublist _ _).subset hr)).1
  · exact List.Nodup.sublist ((List.take_sublist _ _).map keyOf)
      (dedupeAux_keys_nodup [] _)

/-- Skipping a raising adapter: the accumulation loop treats an adapter that
throws exactly like an absent adapter (the `except: continue` branch). -/
theorem collectNews_error_skip (rs₁ rs₂ : List (Except Unit (List NewsItem)))
    (cap : Nat) (acc : List NewsItem) :
    collectNews (rs₁ ++ Except.error () :: rs₂) cap acc = collectNews (rs₁ ++ rs₂) cap acc := by
  induction rs₁ generalizing acc with
  | nil => rfl
  | cons r rs ih =>
    cases r with
    | error e => simp only [List.cons_append, collectNews]; exact ih acc
    | ok news =>
      simp only [List.cons_append, collectNews]
      split
      · exact ih acc
      · split
        · rfl
        · exact ih _

/-- C6: adapter failure is isolated — if one adapter raises, the aggregator
catches the fault at the call boundary and produces exactly the output it
would produce without that adapter; in particular every earlier adapter's
contribution is unchanged. -/
theorem adapter_error_isolated (apis₁ apis₂ : List (String → Nat → Except Unit (List NewsItem)))
    (bad : String → Nat → Except Unit (List NewsItem)) (ticker : String) (max_articles : Nat)
    (hbad : bad ticker max_articles = Except.error ()) :
    get_financial_news_fast (apis₁ ++ bad :: apis₂) ticker max_articles
      = get_financial_news_fast (apis₁ ++ apis₂) ticker max_articles := by
  unfold get_financial_news_fast
  rw [List.map_append, List.map_cons, List.map_append, hbad, collectNews_error_skip]

/-- An adapter that returns one record. -/
def goodApi : String → Nat → Except Unit (List NewsItem) := fun _ _ => Except.ok [itemX]

/-- An adapter that raises on every call. -/
def badApi : String → Nat → Except Unit (List NewsItem) := fun _ _ => Except.error ()

/-- Witness for C6 at a concrete input: a raising second adapter leaves the
first adapter's run unchanged. -/
theorem adapter_error_isolated_witness :
    get_financial_news_fast ([goodApi] ++ badApi :: []) "AAPL" 5
      = get_financial_news_fast ([goodApi] ++ []) "AAPL" 5 :=
  adapter_error_isolated [goodApi] [] badApi "AAPL" 5 rfl

/-- C4: for a record whose title is empty or whitespace-only, both
`analyze_dataframe` implementations append the fixed neutral triple without
invoking the scorer (the result at that row is the same for every scorer),
and a non-blank title is passed to the scorer verbatim. -/
theorem blank_title_neutral_no_scorer (scorer : String → SentimentResult)
    (pre post : List String) (t : String) (h : pyStrip t = "") :
    analyze_dataframe scorer (pre ++ t :: post)
      = analyze_dataframe scorer pre ++ neutralResult :: analyze_dataframe scorer post ∧
    (∀ scorer₂, scoreTitle scorer t = scoreTitle scorer₂ t) ∧
    (∀ s, pyStrip s ≠ "" → scoreTitle scorer s = scorer s) := by
  have hneu : ∀ sc : String → SentimentResult, scoreTitle sc t = neutralResult := by
    intro sc
    unfold scoreTitle
    rw [if_neg]
    intro hc
    exact hc.2 h
  refine ⟨?_, fun sc₂ => (hneu scorer).trans (hneu sc₂).symm, ?_⟩
  · unfold analyze_dataframe
    rw [List.map_append, List.map_cons, hneu scorer]
  · intro s hs
    unfold scoreTitle
    rw [if_pos]
    refine ⟨?_, hs⟩
    intro hempty
    apply hs
    rw [hempty]
    rfl

/-- An all-positive scorer used only as the concrete collaborator in
witnesses. -/
def posScorer : String → SentimentResult :=
  fun s => { text := s, sentiment := "positive", confidence := 1, sentiment_score := 1 }

/-- Witness for C4 at a concrete input: the whitespace-only title `" "`
yields the neutral triple even under an all-positive scorer. -/
theorem blank_title_neutral_no_scorer_witness :
    analyze_dataframe posScorer ([] ++ " " :: [])
      = analyze_dataframe posScorer [] ++ neutralResult :: analyze_dataframe posScorer [] :=
  (blank_title_neutral_no_scorer posScorer [] [] " " (by decide)).1

/-- A scored row whose `title` CSV cell is NaN (`none`). -/
def nullTitleRow : ScoredRow := { ticker := "AAPL", title := none, sentiment_score := 1/2 }

/-- C5 counterexample: the claim says `article_count` equals the number of
scored records. pandas `count` counts only non-null cells: a row with a NaN
title is scored and included in the mean, yet not counted, so for the
one-row group the claim's count would be 1 while the code yields 0. -/
theorem article_count_misses_null_title :
    article_count "AAPL" [nullTitleRow] = 0 ∧
    (tickerRows "AAPL" [nullTitleRow]).length = 1 ∧
    mean_sentiment_score "AAPL" [nullTitleRow] = some (1/2) := by
  refine ⟨rfl, rfl, ?_⟩
  simp [mean_sentiment_score, tickerRows, nullTitleRow]

/-- The three-score group of the claim's concrete check. -/
def rowsC5 : List ScoredRow :=
  [ { ticker := "AAPL", title := some "a", sentiment_score := 1/2 },
    { ticker := "AAPL", title := some "b", sentiment_score := -1/2 },
    { ticker := "AAPL", title := some "c", sentiment_score := 1/5 } ]

/-- C5 (amended): the summary is the arithmetic mean of `sentiment_score`
over the ticker's scored rows, undefined (`none`) for an empty group, and
`article_count` equals the number of scored rows provided every row's title
is non-null (pandas `count` skips NaN titles); for scores `[1/2, -1/2, 1/5]`
the mean is within `1/1000` of `667/10000` and the count is 3. -/
theorem ticker_summary_amended (t : String) (rows : List ScoredRow)
    (htitle : ∀ r ∈ tickerRows t rows, r.title ≠ none) :
    article_count t rows = (tickerRows t rows).length ∧
    (tickerRows t rows = [] → mean_sentiment_score t rows = none) ∧
    (tickerRows t rows ≠ [] →
      mean_sentiment_score t rows
        = some (((tickerRows t rows).map (fun r => r.sentiment_score)).sum
            / ((tickerRows t rows).length : ℚ))) ∧
    (∃ q : ℚ, mean_sentiment_score "AAPL" rowsC5 = some q ∧ |q - 667/10000| ≤ 1/1000) ∧
    article_count "AAPL" rowsC5 = 3 := by
  refine ⟨?_, ?_, ?_, ⟨1/15, ?_, ?_⟩, rfl⟩
  · unfold article_count
    rw [List.filter_eq_self.mpr]
    intro a ha
    simpa using htitle a ha
  · intro he
    simp [mean_sentiment_score, he]
  · intro hne
    have hlen : (tickerRows t rows).length ≠ 0 := fun h0 => hne (List.length_eq_zero.mp h0)
    simp [mean_sentiment_score, hlen]
  · show mean_sentiment_score "AAPL" rowsC5 = some (1/15)
    simp [mean_sentiment_score, tickerRows, rowsC5]
    norm_num
  · rw [abs_le]
    constructor <;> norm_num

/-- Witness for the amended C5 at a concrete input: on the three-row group
itself, the count equals the group size. -/
theorem ticker_summary_amended_witness :
    article_count "AAPL" rowsC5 = (tickerRows "AAPL" rowsC5).length :=
  (ticker_summary_amended "AAPL" rowsC5 (by decide)).1

/-! ### Batch resilience, persistence and exit status -/

/-- A per-ticker pipeline that raises for "T1" and succeeds for "T2". -/
def procCex : String → Except String (List NewsItem) :=
  fun t => if t = "T1" then Except.error "boom" else Except.ok [itemY]

/-- C7 counterexample: the ticker loop of `run_pipeline` has no try/except,
so with tickers `["T1", "T2"]` where "T1"'s pipeline raises, the whole batch
aborts with that exception: "T2" is never processed, nothing is persisted,
and the claimed catch-and-skip behaviour does not happen. -/
theorem batch_aborts_on_ticker_error_cex :
    run_pipeline procCex ["T1", "T2"] "20250101_1200" "20250101" []
      = Except.error "boom" ∧
    script_exit_code procCex ["T1", "T2"] "20250101_1200" "20250101" [] = 1 := by
  constructor <;> rfl

/-- The unguarded ticker loop propagates the first per-ticker exception. -/
theorem runTickers_error (proc : String → Except String (List NewsItem))
    (pre : List String) (t : String) (post : List String) (e : String)
    (hok : ∀ x ∈ pre, ∃ l, proc x = Except.ok l) (ht : proc t = Except.error e) :
    runTickers proc (pre ++ t :: post) = Except.error e := by
  induction pre with
  | nil => simp only [List.nil_append, runTickers, ht]
  | cons x pre ih =>
    obtain ⟨l, hl⟩ := hok x (List.mem_cons_self _ _)
    have ih' := ih (fun y hy => hok y (List.mem_cons_of_mem _ hy))
    simp only [List.cons_append, runTickers, hl, List.append_eq, ih']

/-- C7 (amended): the batch loop applies no per-ticker error handling — once
every ticker before a failing one has succeeded, the raised exception
propagates out of `run_pipeline`, the remaining tickers are not processed,
nothing is persisted for the run, and the process exits with the
interpreter's failure status. -/
theorem batch_abort_amended (proc : String → Except String (List NewsItem))
    (pre : List String) (t : String) (post : List String) (e : String)
    (m d : String) (fs : FileSystem)
    (hok : ∀ x ∈ pre, ∃ l, proc x = Except.ok l) (ht : proc t = Except.error e) :
    run_pipeline proc (pre ++ t :: post) m d fs = Except.error e ∧
    script_exit_code proc (pre ++ t :: post) m d fs = 1 := by
  have h := runTickers_error proc pre t post e hok ht
  refine ⟨?_, ?_⟩
  · simp only [run_pipeline, h]
  · simp only [script_exit_code, run_pipeline, h]

/-- Witness for the amended C7 at a concrete input. -/
theorem batch_abort_amended_witness :
    run_pipeline (fun t => if t = "T1" then Except.error "boom" else Except.ok [])
      (["T0"] ++ "T1" :: []) "m" "d" [] = Except.error "boom" :=
  (batch_abort_amended (fun t => if t = "T1" then Except.error "boom" else Except.ok [])
    ["T0"] "T1" [] "boom" "m" "d" []
    (fun x hx => by
      rw [List.mem_singleton] at hx
      subst hx
      exact ⟨[], rfl⟩)
    rfl).1

/-- Reading back a freshly written file yields the written content. -/
theorem lookupFile_writeFile_self (fs : FileSystem) (name : String) (content : List Row) :
    lookupFile (writeFile fs name content) name = some content := by
  unfold lookupFile writeFile
  rw [List.find?_cons_of_pos _ (by simp)]
  rfl

/-- C8: append-or-create on the day partition — when the current day's file
exists, `save_news_data` appends exactly the new data rows to it (no second
header row); when it does not, a fresh (minute-stamped) file is created whose
first row is the header. -/
theorem save_news_append_or_create (minuteStamp dayStamp : String) (news : List NewsItem)
    (fs : FileSystem) (hne : news ≠ []) :
    (∀ content, lookupFile fs ("data/financial_news_" ++ dayStamp ++ ".csv") = some content →
      (save_news_data minuteStamp dayStamp news fs).1
          = some ("data/financial_news_" ++ dayStamp ++ ".csv") ∧
      lookupFile (save_news_data minuteStamp dayStamp news fs).2
          ("data/financial_news_" ++ dayStamp ++ ".csv") = some (content ++ news.map toRow)) ∧
    (lookupFile fs ("data/financial_news_" ++ dayStamp ++ ".csv") = none →
      (save_news_data minuteStamp dayStamp news fs).1
          = some ("data/financial_news_" ++ minuteStamp ++ ".csv") ∧
      lookupFile (save_news_data minuteStamp dayStamp news fs).2
          ("data/financial_news_" ++ minuteStamp ++ ".csv")
          = some (newsHeader :: news.map toRow)) := by
  constructor
  · intro content hc
    simp only [save_news_data, if_neg hne, hc]
    exact ⟨trivial, lookupFile_writeFile_self fs _ _⟩
  · intro hc
    simp only [save_news_data, if_neg hne, hc]
    exact ⟨trivial, lookupFile_writeFile_self fs _ _⟩

/-- Witness for C8 at a concrete input: on an empty filesystem the day file
does not exist, so a new file is created with the header first. -/
theorem save_news_append_or_create_witness :
    (save_news_data "20250101_1200" "20250101" [itemX] []).1
        = some ("data/financial_news_" ++ "20250101_1200" ++ ".csv") ∧
    lookupFile (save_news_data "20250101_1200" "20250101" [itemX] []).2
        ("data/financial_news_" ++ "20250101_1200" ++ ".csv")
        = some (newsHeader :: [itemX].map toRow) :=
  (save_news_append_or_create "20250101_1200" "20250101" [itemX] []
    (List.cons_ne_nil _ _)).2 rfl

/-- C9 counterexample: a batch in which every ticker yields zero records
ends with exit status 0 — the script only prints a message and returns, so
the claimed non-zero failure status is never produced. -/
theorem exit_code_zero_on_no_news_cex :
    script_exit_code (fun _ => Except.ok []) ["AAPL", "MSFT"] "20250101_1200" "20250101" [] = 0 ∧
    run_pipeline (fun _ => Except.ok []) ["AAPL", "MSFT"] "20250101_1200" "20250101" []
      = Except.ok (RunOutcome.abortedNoNews, []) := by
  constructor <;> rfl

/-- C9 (amended): when the whole batch produces zero records, the entry
point reports it only through the early-return message path
(`abortedNoNews`), persists nothing, and the process exit status is 0 —
success and failure are not distinguished by the exit code. -/
theorem exit_code_amended (proc : String → Except String (List NewsItem))
    (tickers : List String) (m d : String) (fs : FileSystem)
    (h : runTickers proc tickers = Except.ok []) :
    script_exit_code proc tickers m d fs = 0 ∧
    run_pipeline proc tickers m d fs = Except.ok (RunOutcome.abortedNoNews, fs) := by
  have hrun : run_pipeline proc tickers m d fs
      = Except.ok (RunOutcome.abortedNoNews, fs) := by
    have hsave : save_news_data m d ([] : List NewsItem) fs = (none, fs) := rfl
    simp only [run_pipeline, h, hsave]
  exact ⟨by simp only [script_exit_code, hrun], hrun⟩

/-- Witness for the amended C9 at a concrete input. -/
theorem exit_code_amended_witness :
    script_exit_code (fun _ => Except.ok []) ["NVDA"] "m" "d" [] = 0 :=
  (exit_code_amended (fun _ => Except.ok []) ["NVDA"] "m" "d" [] rfl).1
